import Mathlib

/-!
Shallow embedding of the thermocline feature-detection core of
seabird/thermocline.py: the segmentation detector (class
thermocline_segmentation), its gradient, anomaly and boundary logic, and
the ensemble orchestrator (class thermocline).  Floats are modelled by
rationals; a raised exception is modelled by an Option-valued result
(none = exception); pandas positional indexing is modelled by List.get?
and Python negative indexing by pyGet.
-/

namespace Seabird

/-- Python list indexing with negative-index support; none models an
IndexError. -/
def pyGet {α : Type} (l : List α) (i : ℤ) : Option α :=
  let j : ℤ := if i < 0 then i + l.length else i
  if 0 ≤ j then l.get? j.toNat else none

/-- Configuration fields read by the detector from the config dictionary:
Preprocessing.Interval and Algorithm.segment thresholds. -/
structure Config where
  interval : ℚ
  max_error : ℚ
  stable_gradient : ℚ
  stable_gradient2 : ℚ
  minTRM_gradient : ℚ
deriving DecidableEq

/-- Modelled from the spec: a segment produced by the external fitting
engine bottomUp (models/model_segmentation.py, which is not under src/).
In the source a segment is a pair [fitted line, point index]; per the
spec the fitted-line component carries the fitted temperature at the
segment's first index (startValue, read as seg[0][0] in the source) and
at its last index (endValue, read as seg[0][1]), and indexRange is the
list of profile point indices (seg[1]). -/
structure Segment where
  startValue : ℚ
  endValue : ℚ
  indexRange : List ℕ
deriving DecidableEq

/-- Python max over a list of floats; none models the ValueError raised
on an empty list. -/
def listMax : List ℚ → Option ℚ
  | [] => none
  | x :: xs => some (xs.foldl max x)

/-- np.argmax: the index of the first occurrence of the maximum.  (The
source never reaches this on an empty list without raising first; the
value 0 returned here for [] is immediately followed by a failing
lookup wherever it matters.) -/
def npArgmax (l : List ℚ) : ℕ :=
  match listMax l with
  | none => 0
  | some m => l.indexOf m

namespace thermocline_segmentation

/-- getGradientFromSegment (thermocline.py line 61):
(seg[0][0] - seg[0][1]) / self.depthInterval, where self.depthInterval is
config Preprocessing.Interval. -/
def getGradientFromSegment (cfg : Config) (seg : Segment) : ℚ :=
  (seg.startValue - seg.endValue) / cfg.interval

/-- Gradient of the i-th segment of a list, as read inside the detection
loops (always called with i in bounds in the source). -/
def gradAt (cfg : Config) (segs : List Segment) (i : ℕ) : ℚ :=
  getGradientFromSegment cfg (segs.getD i ⟨0, 0, []⟩)

/-- The indices flagged by the loop of detectDoubleTRM (lines 73-82):
i ranges over range(1, len(segmentList) - 1) and is flagged iff the
segment gradient is small while the previous one exceeds minTRM_gradient
and the next one exceeds stable_gradient. -/
def doubleTRMflags (cfg : Config) (segs : List Segment) : List ℕ :=
  (List.range segs.length).filter fun i =>
    decide (0 < i) && decide (i + 1 < segs.length) &&
    decide (|gradAt cfg segs i| < cfg.stable_gradient) &&
    decide (cfg.minTRM_gradient < gradAt cfg segs (i - 1)) &&
    decide (cfg.stable_gradient < gradAt cfg segs (i + 1))

/-- detectDoubleTRM (lines 63-85): appends the flagged indices to the
incoming self.doubleTRM, never clearing it. -/
def detectDoubleTRM (cfg : Config) (segs : List Segment)
    (doubleTRM : List ℕ) : List ℕ :=
  doubleTRM ++ doubleTRMflags cfg segs

/-- The indices flagged by the loop of detectPositiveGradient
(lines 99-102): every segment whose gradient is below
-1 * stable_gradient. -/
def positiveSegFlags (cfg : Config) (segs : List Segment) : List ℕ :=
  (List.range segs.length).filter fun i =>
    decide (gradAt cfg segs i < -1 * cfg.stable_gradient)

/-- detectPositiveGradient (lines 87-102): resets self.positiveSeg to []
(line 98) before scanning, so the prior value is discarded. -/
def detectPositiveGradient (cfg : Config) (segs : List Segment)
    (_positiveSeg : List ℕ) : List ℕ :=
  positiveSegFlags cfg segs

/-- The mutable fields of a thermocline_segmentation instance that detect
reads or writes. -/
structure SegState where
  TRM : Option ℚ
  LEP : Option ℚ
  UHY : Option ℚ
  TRM_gradient : Option ℚ
  num_segments : Option ℕ
  TRM_idx : Option ℕ
  doubleTRM : List ℕ
  positiveSeg : List ℕ
  gradient : List ℚ
deriving DecidableEq

/-- The state of a freshly constructed detector (constructor,
lines 36-49). -/
def initState : SegState :=
  ⟨none, none, none, none, none, none, [], [], []⟩

/-- int(np.mean(idx)) at line 148: the mean of the point indices,
truncated toward zero; none models the error raised on an empty index
list (np.mean of [] is NaN). -/
def meanIndex (idx : List ℕ) : Option ℕ :=
  if idx.length = 0 then none
  else some (Int.toNat ⌊(idx.sum : ℚ) / (idx.length : ℚ)⌋)

/-- tmpDepth[-1] - tmpDepth[0] for
tmpDepth = np.array(data.Depth[segment.indexRange]) (lines 132-133);
none models an out-of-bounds index or an empty index range. -/
def segmentSpan (depths : List ℚ) (s : Segment) : Option ℚ := do
  let tmp ← s.indexRange.mapM fun i => depths.get? i
  let dLast ← pyGet tmp (-1)
  let dFirst ← tmp.get? 0
  pure (dLast - dFirst)

/-- The noise guard (lines 131-139): when the first segment bears the
maximum gradient and spans less than 2 depth units, pop it; otherwise
keep the list unchanged. -/
def noiseGuard (cfg : Config) (depths : List ℚ) (segs : List Segment) :
    Option (List Segment) :=
  if npArgmax (segs.map (getGradientFromSegment cfg)) = 0 then do
    let s0 ← segs.get? 0
    let d ← segmentSpan depths s0
    if d < 2 then pure segs.tail else pure segs
  else pure segs

/-- The LEP index selection (lines 150-162), given the default
LEP index lep0 = segmentList[0][1][-1]; the outer Option models an
exception, the inner one the None index. -/
def computeLEPindex (cfg : Config) (segs : List Segment)
    (gradient : List ℚ) (maxIdx : ℕ) (lep0 : ℕ) : Option (Option ℕ) :=
  if maxIdx = 0 then some none
  else do
    let g1 ← gradient.get? 1
    if |g1| < cfg.stable_gradient then do
      let s1 ← segs.get? 1
      let j ← pyGet s1.indexRange (-1)
      pure (some j)
    else do
      let g0 ← gradient.get? 0
      if cfg.stable_gradient2 < |g0| then pure none
      else pure (some lep0)

/-- The UHY index selection (lines 164-178), given the default
UHY index uhy0 = segmentList[-1][1][0]. -/
def computeUHYindex (cfg : Config) (segs : List Segment)
    (gradient : List ℚ) (maxIdx : ℕ) (uhy0 : ℕ) : Option (Option ℕ) :=
  if maxIdx = gradient.length - 1 then some none
  else do
    let gm2 ← pyGet gradient (-2)
    if |gm2| < cfg.stable_gradient then do
      let sm2 ← pyGet segs (-2)
      let j ← sm2.indexRange.get? 0
      pure (some j)
    else do
      let gm1 ← pyGet gradient (-1)
      if cfg.stable_gradient2 < |gm1| then pure none
      else pure (some uhy0)

/-- Lines 180-181: self.LEP = data.Depth[LEP_index] when LEP_index is
not None. -/
def setLEPdepth (depths : List ℚ) (st : SegState) :
    Option ℕ → Option SegState
  | some i => do
    let d ← depths.get? i
    pure { st with LEP := some d }
  | none => pure st

/-- Lines 183-184: self.UHY = data.Depth[UHY_index] when UHY_index is
not None. -/
def setUHYdepth (depths : List ℚ) (st : SegState) :
    Option ℕ → Option SegState
  | some i => do
    let d ← depths.get? i
    pure { st with UHY := some d }
  | none => pure st

/-- The branch taken when the maximum gradient exceeds minTRM_gradient
(lines 144-184): set TRM to the depth at the truncated mean index of the
max-gradient segment, then select and apply the LEP and UHY indices. -/
def gateBranch (cfg : Config) (depths : List ℚ) (segs : List Segment)
    (gradient : List ℚ) (maxIdx : ℕ) (st : SegState) : Option SegState := do
  let seg ← segs.get? maxIdx
  let mi ← meanIndex seg.indexRange
  let trm ← depths.get? mi
  let ep ← segs.get? 0
  let lep0 ← pyGet ep.indexRange (-1)
  let lidx ← computeLEPindex cfg segs gradient maxIdx lep0
  let hyp ← pyGet segs (-1)
  let uhy0 ← hyp.indexRange.get? 0
  let uidx ← computeUHYindex cfg segs gradient maxIdx uhy0
  let st1 ← setLEPdepth depths { st with TRM := some trm } lidx
  setUHYdepth depths st1 uidx

/-- The unconditional epilogue (lines 189-194): record TRM_gradient,
num_segments, TRM_idx, and run the two anomaly detectors. -/
def finalizeDiag (cfg : Config) (segs : List Segment)
    (maxIdx : ℕ) (tg : ℚ) (st : SegState) : SegState :=
  { st with
    TRM_gradient := some tg
    num_segments := some segs.length
    TRM_idx := some maxIdx
    doubleTRM := detectDoubleTRM cfg segs st.doubleTRM
    positiveSeg := detectPositiveGradient cfg segs st.positiveSeg }

/-- detect after the noise guard (lines 138-194): recompute gradients and
the argmax on the (possibly reduced) segment list, record self.gradient,
take the TRM gate, and record the diagnostics. -/
def segDetectCore (cfg : Config) (depths : List ℚ) (segs : List Segment)
    (st : SegState) : Option SegState := do
  let gradient := segs.map (getGradientFromSegment cfg)
  let maxIdx := npArgmax gradient
  let gmax ← gradient.get? maxIdx
  let st1 := { st with gradient := gradient }
  let st2 ←
    if cfg.minTRM_gradient < gmax then
      gateBranch cfg depths segs gradient maxIdx st1
    else
      pure st1
  let tg ← listMax gradient
  pure (finalizeDiag cfg segs maxIdx tg st2)

/-- thermocline_segmentation.detect (lines 104-194), taking the segment
list produced by the external fitting engine as input: np.argmax raises
on an empty list (line 128), then the noise guard runs, then the core. -/
def detect (cfg : Config) (depths : List ℚ) (segs : List Segment)
    (st : SegState) : Option SegState :=
  match segs with
  | [] => none
  | _ :: _ => do
    let segs2 ← noiseGuard cfg depths segs
    segDetectCore cfg depths segs2 st

end thermocline_segmentation

/-- The ensemble feature dictionary: string keys mapped to
float-or-None values. -/
abbrev Feat := List (String × Option ℚ)

/-- Python dict assignment: replace the value of an existing key in
place, or append a new key. -/
def setKey : Feat → String → Option ℚ → Feat
  | [], k, v => [(k, v)]
  | (k0, v0) :: rest, k, v =>
    if k0 = k then (k0, v) :: rest else (k0, v0) :: setKey rest k v

/-- The feature dictionary set up at lines 239-245: the nine namespaced
boundary keys plus TRM_gradient_segment and TRM_num_segment, all None. -/
def initFeatures : Feat :=
  [("TRM_segment", none), ("TRM_HMM", none), ("TRM_threshold", none),
   ("LEP_segment", none), ("LEP_HMM", none), ("LEP_threshold", none),
   ("UHY_segment", none), ("UHY_HMM", none), ("UHY_threshold", none),
   ("TRM_gradient_segment", none), ("TRM_num_segment", none)]

namespace thermocline

open thermocline_segmentation

/-- The segmentation arm of thermocline.detect (lines 249-284): run the
segmentation detector on a freshly constructed instance, then copy its
fields into the feature dictionary one assignment at a time, each of the
last three assignments being a fallible gradient-list lookup.  The Bool
is false when the try-block raised an exception (the except arm at
line 282 only logs, keeping whatever was already assigned). -/
def segBlock (cfg : Config) (depths : List ℚ) (segs : List Segment)
    (f : Feat) : Feat × Bool :=
  match thermocline_segmentation.detect cfg depths segs initState with
  | none => (f, false)
  | some st =>
    let f := setKey f "TRM_gradient_segment" st.TRM_gradient
    let f := setKey f "TRM_segment" st.TRM
    let f := setKey f "LEP_segment" st.LEP
    let f := setKey f "UHY_segment" st.UHY
    let f := setKey f "TRM_num_segment" (st.num_segments.map fun n => (n : ℚ))
    let f := setKey f "TRM_idx" (st.TRM_idx.map fun n => (n : ℚ))
    let f := setKey f "doubleTRM" (some st.doubleTRM.length)
    let f := setKey f "positiveGradient" (some st.positiveSeg.length)
    match pyGet st.gradient 0 with
    | none => (f, false)
    | some g0 =>
      let f := setKey f "firstSegmentGradient" (some g0)
      match pyGet st.gradient (-1) with
      | none => (f, false)
      | some gl =>
        let f := setKey f "lastSegmentGradient" (some gl)
        match pyGet st.gradient (-2) with
        | none => (f, false)
        | some g2 => (setKey f "lastButTwoSegmentGradient" (some g2), true)

/-- Modelled from the spec: the HMM strategy (thermocline_HMM.detect,
lines 203-209) wraps external engines (models/model_HMM.py and
tools/signalProcessing.py, not under src/); its outcome is abstracted as
the three depths (TRM, LEP, UHY) it assigns, none modelling an exception
raised anywhere inside the strategy before the feature copy. -/
def hmmBlock (out : Option (ℚ × ℚ × ℚ)) (f : Feat) : Feat × Bool :=
  match out with
  | none => (f, false)
  | some (t, l, u) =>
    let f := setKey f "TRM_HMM" (some t)
    let f := setKey f "LEP_HMM" (some l)
    (setKey f "UHY_HMM" (some u), true)

/-- Modelled from the spec: the threshold strategy
(thermocline_threshold.detect, lines 212-218) wraps external engines
(models/model_threshold.py and tools/signalProcessing.py, not under
src/); its outcome is abstracted like the HMM one. -/
def thrBlock (out : Option (ℚ × ℚ × ℚ)) (f : Feat) : Feat × Bool :=
  match out with
  | none => (f, false)
  | some (t, l, u) =>
    let f := setKey f "TRM_threshold" (some t)
    let f := setKey f "LEP_threshold" (some l)
    (setKey f "UHY_threshold" (some u), true)

/-- Result of the ensemble call: the merged feature dictionary plus, for
each strategy, whether its try-block completed without an exception. -/
structure EnsembleResult where
  features : Feat
  segOk : Bool
  hmmOk : Bool
  thrOk : Bool
deriving DecidableEq

/-- thermocline.detect (lines 229-311): the three strategies run in a
fixed order, each inside its own try/except boundary, over one shared
feature dictionary. -/
def detect (cfg : Config) (depths : List ℚ) (segs : List Segment)
    (hmmOut thrOut : Option (ℚ × ℚ × ℚ)) (methods : List String) :
    EnsembleResult :=
  let p1 :=
    if "segmentation" ∈ methods then segBlock cfg depths segs initFeatures
    else (initFeatures, true)
  let p2 := if "HMM" ∈ methods then hmmBlock hmmOut p1.1 else (p1.1, true)
  let p3 := if "threshold" ∈ methods then thrBlock thrOut p2.1 else (p2.1, true)
  ⟨p3.1, p1.2, p2.2, p3.2⟩

end thermocline

/-! ## Helper lemmas -/

open thermocline_segmentation

theorem foldl_max_mem : ∀ (xs : List ℚ) (x : ℚ), xs.foldl max x ∈ x :: xs := by
  intro xs
  induction xs with
  | nil => intro x; simp [List.foldl]
  | cons y ys ih =>
    intro x
    have h := ih (max x y)
    simp only [List.foldl_cons]
    rcases List.mem_cons.mp h with h2 | h2
    · rcases max_choice x y with h1 | h1 <;> rw [h2, h1] <;> simp
    · simp [h2]

theorem listMax_mem {l : List ℚ} {m : ℚ} (h : listMax l = some m) : m ∈ l := by
  cases l with
  | nil => simp [listMax] at h
  | cons x xs =>
    simp only [listMax, Option.some.injEq] at h
    subst h
    exact foldl_max_mem xs x

theorem get?_npArgmax {l : List ℚ} {m : ℚ} (h : listMax l = some m) :
    l.get? (npArgmax l) = some m := by
  have hm : m ∈ l := listMax_mem h
  simp only [npArgmax, h]
  exact List.indexOf_get? hm

theorem pyGet_zero {α : Type} (l : List α) : pyGet l 0 = l.get? 0 := by
  simp [pyGet]

theorem pyGet_neg_one {α : Type} (l : List α) : pyGet l (-1) = l.getLast? := by
  cases l with
  | nil => rfl
  | cons a as =>
    have hc : (0 : ℤ) ≤ -1 + (a :: as).length := by
      simp only [List.length_cons]; omega
    have ht : ((-1 : ℤ) + (a :: as).length).toNat = (a :: as).length - 1 := by
      simp only [List.length_cons]; omega
    simp only [pyGet, if_pos (by norm_num : (-1 : ℤ) < 0), if_pos hc, ht]
    rw [List.getLast?_eq_get?]

theorem pyGet_neg_two_of_length_one {α : Type} {l : List α}
    (h : l.length = 1) : pyGet l (-2) = none := by
  simp only [pyGet, h]
  norm_num

theorem two_mul_sum_range' :
    ∀ (n i0 : ℕ), 2 * (List.range' i0 n).sum + n = n * (2 * i0 + n) := by
  intro n
  induction n with
  | zero => intro i0; simp
  | succ k ih =>
    intro i0
    have h := ih (i0 + 1)
    simp only [List.range'_succ, List.sum_cons]
    zify at h ⊢
    linear_combination h

theorem meanIndex_range' (i0 n : ℕ) (hn : 0 < n) :
    meanIndex (List.range' i0 n) = some ((2 * i0 + (n - 1)) / 2) := by
  obtain ⟨k, rfl⟩ : ∃ k, n = k + 1 := ⟨n - 1, by omega⟩
  have hlen : (List.range' i0 (k + 1)).length = k + 1 := by simp
  have hsum : 2 * (List.range' i0 (k + 1)).sum = (k + 1) * (2 * i0 + k) := by
    have h := two_mul_sum_range' (k + 1) i0
    zify at h ⊢
    linear_combination h
  have hq : ((List.range' i0 (k + 1)).sum : ℚ) /
      ((List.range' i0 (k + 1)).length : ℚ) =
      ((2 * i0 + k : ℕ) : ℚ) / 2 := by
    rw [hlen, div_eq_div_iff
      (Nat.cast_ne_zero.mpr (by omega : (k + 1) ≠ 0))
      (by norm_num : (2 : ℚ) ≠ 0)]
    have hc := congrArg (Nat.cast : ℕ → ℚ) hsum
    push_cast at hc ⊢
    linear_combination hc
  simp only [meanIndex, hlen]
  rw [if_neg (by omega : ¬(k + 1) = 0)]
  rw [hlen] at hq
  rw [hq]
  rw [show ((2 : ℚ)) = ((2 : ℕ) : ℚ) by norm_num]
  rw [Int.floor_toNat, Nat.floor_div_nat, Nat.floor_natCast]
  simp

theorem setLEPdepth_none (depths : List ℚ) (st : SegState) :
    setLEPdepth depths st none = some st := rfl

theorem setUHYdepth_none (depths : List ℚ) (st : SegState) :
    setUHYdepth depths st none = some st := rfl

theorem setLEPdepth_some {depths : List ℚ} {st st' : SegState} {i : ℕ}
    (h : setLEPdepth depths st (some i) = some st') :
    ∃ d, depths.get? i = some d ∧ st' = { st with LEP := some d } := by
  simp only [setLEPdepth, Option.bind_eq_bind, Option.bind_eq_some,
    Option.pure_def, Option.some.injEq] at h
  obtain ⟨d, hd, h2⟩ := h
  exact ⟨d, hd, h2.symm⟩

theorem setUHYdepth_some {depths : List ℚ} {st st' : SegState} {i : ℕ}
    (h : setUHYdepth depths st (some i) = some st') :
    ∃ d, depths.get? i = some d ∧ st' = { st with UHY := some d } := by
  simp only [setUHYdepth, Option.bind_eq_bind, Option.bind_eq_some,
    Option.pure_def, Option.some.injEq] at h
  obtain ⟨d, hd, h2⟩ := h
  exact ⟨d, hd, h2.symm⟩

theorem setLEPdepth_fields {depths : List ℚ} {st st' : SegState}
    {l : Option ℕ} (h : setLEPdepth depths st l = some st') :
    st'.TRM = st.TRM ∧ st'.UHY = st.UHY ∧
    st'.doubleTRM = st.doubleTRM ∧ st'.positiveSeg = st.positiveSeg ∧
    st'.gradient = st.gradient := by
  cases l with
  | none =>
    rw [setLEPdepth_none] at h; cases h; exact ⟨rfl, rfl, rfl, rfl, rfl⟩
  | some i =>
    obtain ⟨d, -, rfl⟩ := setLEPdepth_some h
    exact ⟨rfl, rfl, rfl, rfl, rfl⟩

theorem setUHYdepth_fields {depths : List ℚ} {st st' : SegState}
    {l : Option ℕ} (h : setUHYdepth depths st l = some st') :
    st'.TRM = st.TRM ∧ st'.LEP = st.LEP ∧
    st'.doubleTRM = st.doubleTRM ∧ st'.positiveSeg = st.positiveSeg ∧
    st'.gradient = st.gradient := by
  cases l with
  | none =>
    rw [setUHYdepth_none] at h; cases h; exact ⟨rfl, rfl, rfl, rfl, rfl⟩
  | some i =>
    obtain ⟨d, -, rfl⟩ := setUHYdepth_some h
    exact ⟨rfl, rfl, rfl, rfl, rfl⟩

theorem gateBranch_parts {cfg : Config} {depths : List ℚ}
    {segs : List Segment} {gradient : List ℚ} {maxIdx : ℕ}
    {st1 st2 : SegState}
    (h : gateBranch cfg depths segs gradient maxIdx st1 = some st2) :
    ∃ seg mi trm ep lep0 lidx hyp uhy0 uidx stL,
      segs.get? maxIdx = some seg ∧
      meanIndex seg.indexRange = some mi ∧
      depths.get? mi = some trm ∧
      segs.get? 0 = some ep ∧
      pyGet ep.indexRange (-1) = some lep0 ∧
      computeLEPindex cfg segs gradient maxIdx lep0 = some lidx ∧
      pyGet segs (-1) = some hyp ∧
      hyp.indexRange.get? 0 = some uhy0 ∧
      computeUHYindex cfg segs gradient maxIdx uhy0 = some uidx ∧
      setLEPdepth depths { st1 with TRM := some trm } lidx = some stL ∧
      setUHYdepth depths stL uidx = some st2 := by
  simp only [gateBranch, Option.bind_eq_bind, Option.bind_eq_some] at h
  obtain ⟨seg, h1, mi, h2, trm, h3, ep, h4, lep0, h5, lidx, h6, hyp, h7,
    uhy0, h8, uidx, h9, stL, h10, h11⟩ := h
  exact ⟨seg, mi, trm, ep, lep0, lidx, hyp, uhy0, uidx, stL,
    h1, h2, h3, h4, h5, h6, h7, h8, h9, h10, h11⟩

theorem finalizeDiag_fields (cfg : Config) (segs : List Segment)
    (maxIdx : ℕ) (tg : ℚ) (st : SegState) :
    (finalizeDiag cfg segs maxIdx tg st).TRM = st.TRM ∧
    (finalizeDiag cfg segs maxIdx tg st).LEP = st.LEP ∧
    (finalizeDiag cfg segs maxIdx tg st).UHY = st.UHY :=
  ⟨rfl, rfl, rfl⟩

theorem segDetectCore_gateOpen {cfg : Config} {depths : List ℚ}
    {segs : List Segment} {st0 st : SegState} {m : ℚ}
    (hmax : listMax (segs.map (getGradientFromSegment cfg)) = some m)
    (hgt : cfg.minTRM_gradient < m)
    (hrun : segDetectCore cfg depths segs st0 = some st) :
    ∃ st2, gateBranch cfg depths segs
        (segs.map (getGradientFromSegment cfg))
        (npArgmax (segs.map (getGradientFromSegment cfg)))
        { st0 with gradient := segs.map (getGradientFromSegment cfg) } =
          some st2 ∧
      st = finalizeDiag cfg segs
        (npArgmax (segs.map (getGradientFromSegment cfg))) m st2 := by
  simp only [segDetectCore, Option.bind_eq_bind, get?_npArgmax hmax, hmax,
    Option.some_bind, if_pos hgt, Option.bind_eq_some, Option.pure_def,
    Option.some.injEq] at hrun
  obtain ⟨st2, h1, h2⟩ := hrun
  exact ⟨st2, h1, h2.symm⟩

/-! ## Claim theorems -/

attribute [local semireducible] Rat.mul Rat.inv Rat.add Rat.sub

/-- Claim C1 (confirmed): for every Segment, the gradient computed by the
segmentation detector equals (startValue - endValue) / interval, and with a
positive configured depth interval it is positive exactly when the fitted
temperature decreases with depth over the segment (endValue < startValue). -/
theorem C1_gradient (cfg : Config) (seg : Segment) (h : 0 < cfg.interval) :
    getGradientFromSegment cfg seg =
      (seg.startValue - seg.endValue) / cfg.interval ∧
    (0 < getGradientFromSegment cfg seg ↔ seg.endValue < seg.startValue) := by
  refine ⟨rfl, ?_⟩
  unfold getGradientFromSegment
  rw [div_pos_iff]
  constructor
  · rintro (⟨h1, -⟩ | ⟨-, h2⟩)
    · linarith
    · linarith
  · intro hlt
    exact Or.inl ⟨by linarith, h⟩

/-- Witness for C1 at a concrete configuration and segment. -/
theorem C1_gradient_witness :
    getGradientFromSegment ⟨1, 1, 1/2, 3/2, 2⟩ ⟨20, 10, [0]⟩ =
      (20 - 10) / 1 ∧
    (0 < getGradientFromSegment ⟨1, 1, 1/2, 3/2, 2⟩ ⟨20, 10, [0]⟩ ↔
      (10 : ℚ) < 20) :=
  C1_gradient ⟨1, 1, 1/2, 3/2, 2⟩ ⟨20, 10, [0]⟩ (by norm_num)

/-- Claim C3 (confirmed): for every SegmentList reaching the core after the
noise guard, if its maximum gradient is at most minTRM_gradient then detect
raises no exception, leaves TRM, LEP and UHY at None, and still records the
diagnostics: the maximum gradient, the number of segments, the max-gradient
segment index, and the two anomaly index lists. -/
theorem C3_gate (cfg : Config) (depths : List ℚ) (segs : List Segment)
    (m : ℚ)
    (hmax : listMax (segs.map (getGradientFromSegment cfg)) = some m)
    (hle : m ≤ cfg.minTRM_gradient) :
    ∃ st, segDetectCore cfg depths segs initState = some st ∧
      st.TRM = none ∧ st.LEP = none ∧ st.UHY = none ∧
      st.TRM_gradient = some m ∧
      st.num_segments = some segs.length ∧
      st.TRM_idx = some (npArgmax (segs.map (getGradientFromSegment cfg))) ∧
      st.doubleTRM = doubleTRMflags cfg segs ∧
      st.positiveSeg = positiveSegFlags cfg segs := by
  have hget : (segs.map (getGradientFromSegment cfg)).get?
      (npArgmax (segs.map (getGradientFromSegment cfg))) = some m :=
    get?_npArgmax hmax
  refine ⟨finalizeDiag cfg segs
      (npArgmax (segs.map (getGradientFromSegment cfg))) m
      { initState with gradient := segs.map (getGradientFromSegment cfg) },
    ?_, by simp [finalizeDiag, initState], by simp [finalizeDiag, initState],
    by simp [finalizeDiag, initState], by simp [finalizeDiag],
    by simp [finalizeDiag], by simp [finalizeDiag],
    by simp [finalizeDiag, initState, detectDoubleTRM],
    by simp [finalizeDiag, initState, detectPositiveGradient]⟩
  simp only [segDetectCore, Option.bind_eq_bind, hget, hmax, Option.some_bind,
    Option.pure_def, if_neg (not_lt.mpr hle)]

/-- Witness for C3: a flat two-segment profile whose maximum gradient 0 is
below the configured minTRM_gradient 2. -/
theorem C3_gate_witness :
    ∃ st, segDetectCore ⟨1, 1, 1/2, 3/2, 2⟩ [0, 1, 2, 3]
        [⟨20, 20, [0, 1]⟩, ⟨20, 20, [2, 3]⟩] initState = some st ∧
      st.TRM = none ∧ st.LEP = none ∧ st.UHY = none ∧
      st.TRM_gradient = some 0 ∧
      st.num_segments = some 2 ∧
      st.TRM_idx = some 0 ∧
      st.doubleTRM = [] ∧
      st.positiveSeg = [] := by
  have h := C3_gate ⟨1, 1, 1/2, 3/2, 2⟩ [0, 1, 2, 3]
    [⟨20, 20, [0, 1]⟩, ⟨20, 20, [2, 3]⟩] 0 (by decide) (by norm_num)
  obtain ⟨st, h1, h2, h3, h4, h5, h6, h7, h8, h9⟩ := h
  refine ⟨st, h1, h2, h3, h4, h5, by simpa using h6, ?_, ?_, ?_⟩
  · have : npArgmax ([⟨20, 20, [0, 1]⟩, ⟨20, 20, [2, 3]⟩].map
        (getGradientFromSegment ⟨1, 1, 1/2, 3/2, 2⟩)) = 0 := by decide
    rw [h7, this]
  · rw [h8]; decide
  · rw [h9]; decide

/-- Counterexample to claim C2 as stated: on a three-segment profile whose
max-gradient segment has index range [1, 2], the maximum gradient 10 exceeds
minTRM_gradient 2, the claim predicts TRM = depth at round((1+2)/2) = 2, but
the detector truncates the mean with int() and returns the depth 1. -/
theorem C2_counterexample :
    npArgmax (([⟨20, 20, [0]⟩, ⟨20, 10, [1, 2]⟩, ⟨10, 10, [3]⟩] :
        List Segment).map (getGradientFromSegment ⟨1, 1, 1/2, 3/2, 2⟩)) = 1 ∧
    (([⟨20, 20, [0]⟩, ⟨20, 10, [1, 2]⟩, ⟨10, 10, [3]⟩] :
        List Segment).get? 1).map Segment.indexRange = some [1, 2] ∧
    listMax (([⟨20, 20, [0]⟩, ⟨20, 10, [1, 2]⟩, ⟨10, 10, [3]⟩] :
        List Segment).map (getGradientFromSegment ⟨1, 1, 1/2, 3/2, 2⟩)) =
      some 10 ∧
    (2 : ℚ) < 10 ∧
    ((segDetectCore ⟨1, 1, 1/2, 3/2, 2⟩ [0, 1, 2, 3]
        [⟨20, 20, [0]⟩, ⟨20, 10, [1, 2]⟩, ⟨10, 10, [3]⟩] initState).map
      fun st => st.TRM) = some (some 1) ∧
    ([0, 1, 2, 3] : List ℚ).get? (Int.toNat (round ((1 + 2 : ℚ) / 2))) =
      some 2 ∧
    some (some (1 : ℚ)) ≠ some (some (2 : ℚ)) := by
  refine ⟨by decide, by decide, by decide, by norm_num, by decide, ?_, by decide⟩
  have : round ((1 + 2 : ℚ) / 2) = 2 := by
    unfold round
    decide
  rw [this]
  decide

/-- Claim C2 as amended: whenever the maximum segment gradient exceeds
minTRM_gradient and the max-gradient segment has index range [i0, i1], the
detected TRM equals the profile's depth at index (i0 + i1) / 2 rounded DOWN
(the int() truncation of the mean index), which is one less than
round((i0+i1)/2) when i0 + i1 is odd. -/
theorem C2_trm_truncated_midpoint (cfg : Config) (depths : List ℚ)
    (segs : List Segment) (st : SegState) (m : ℚ) (seg : Segment)
    (i0 i1 : ℕ)
    (hmax : listMax (segs.map (getGradientFromSegment cfg)) = some m)
    (hgt : cfg.minTRM_gradient < m)
    (hseg : segs.get?
      (npArgmax (segs.map (getGradientFromSegment cfg))) = some seg)
    (hrange : seg.indexRange = List.range' i0 (i1 + 1 - i0))
    (hi : i0 ≤ i1)
    (hrun : segDetectCore cfg depths segs initState = some st) :
    ∃ d, depths.get? ((i0 + i1) / 2) = some d ∧ st.TRM = some d := by
  obtain ⟨st2, hgb, hfin⟩ := segDetectCore_gateOpen hmax hgt hrun
  obtain ⟨seg', mi, trm, ep, lep0, lidx, hyp, uhy0, uidx, stL,
    h1, h2, h3, h4, h5, h6, h7, h8, h9, h10, h11⟩ := gateBranch_parts hgb
  rw [hseg] at h1
  have hseg' : seg' = seg := by injection h1 with h1; exact h1.symm
  subst hseg'
  rw [hrange, meanIndex_range' i0 (i1 + 1 - i0) (by omega)] at h2
  have hmi : mi = (i0 + i1) / 2 := by
    have h2' : (2 * i0 + (i1 + 1 - i0 - 1)) / 2 = mi := by
      injection h2
    omega
  have hTRM : st.TRM = some trm := by
    rw [hfin, (finalizeDiag_fields _ _ _ _ _).1,
      (setUHYdepth_fields h11).1, (setLEPdepth_fields h10).1]
  exact ⟨trm, by rw [← hmi]; exact h3, hTRM⟩

/-- Witness for the amended C2 on a concrete profile: the max-gradient
segment has index range [1, 2] and TRM is the depth at index
(1 + 2) / 2 = 1. -/
theorem C2_trm_truncated_midpoint_witness :
    ∃ st d, segDetectCore ⟨1, 1, 1/2, 3/2, 2⟩ [0, 1, 2, 3]
        [⟨20, 20, [0]⟩, ⟨20, 10, [1, 2]⟩, ⟨10, 10, [3]⟩] initState =
          some st ∧
      ([0, 1, 2, 3] : List ℚ).get? ((1 + 2) / 2) = some d ∧
      st.TRM = some d := by
  have hs : (segDetectCore ⟨1, 1, 1/2, 3/2, 2⟩ [0, 1, 2, 3]
      [⟨20, 20, [0]⟩, ⟨20, 10, [1, 2]⟩, ⟨10, 10, [3]⟩] initState).isSome :=
    by decide
  rw [Option.isSome_iff_exists] at hs
  obtain ⟨st, hst⟩ := hs
  obtain ⟨d, hd, hTRM⟩ := C2_trm_truncated_midpoint ⟨1, 1, 1/2, 3/2, 2⟩
    [0, 1, 2, 3] [⟨20, 20, [0]⟩, ⟨20, 10, [1, 2]⟩, ⟨10, 10, [3]⟩] st 10
    ⟨20, 10, [1, 2]⟩ 1 2 (by decide) (by norm_num) (by decide) (by decide)
    (by norm_num) hst
  exact ⟨st, d, hst, hd, hTRM⟩

/-- Claim C4 (confirmed, within the open TRM gate): when the
maximum-gradient segment is the first segment, LEP is None; otherwise LEP
follows the first matching rule: if the absolute gradient of segment 1 is
below stable_gradient, LEP is the depth at the last index of segment 1;
else if the absolute gradient of segment 0 exceeds stable_gradient2, LEP
is None; else LEP is the depth at the last index of segment 0. -/
theorem C4_LEP (cfg : Config) (depths : List ℚ) (segs : List Segment)
    (st : SegState) (m : ℚ)
    (hmax : listMax (segs.map (getGradientFromSegment cfg)) = some m)
    (hgt : cfg.minTRM_gradient < m)
    (hrun : segDetectCore cfg depths segs initState = some st) :
    (npArgmax (segs.map (getGradientFromSegment cfg)) = 0 →
      st.LEP = none) ∧
    (npArgmax (segs.map (getGradientFromSegment cfg)) ≠ 0 →
      ∀ g1, (segs.map (getGradientFromSegment cfg)).get? 1 = some g1 →
        (|g1| < cfg.stable_gradient →
          ∃ s1 j d, segs.get? 1 = some s1 ∧
            s1.indexRange.getLast? = some j ∧
            depths.get? j = some d ∧ st.LEP = some d) ∧
        (¬ |g1| < cfg.stable_gradient →
          ∀ g0, (segs.map (getGradientFromSegment cfg)).get? 0 = some g0 →
            (cfg.stable_gradient2 < |g0| → st.LEP = none) ∧
            (¬ cfg.stable_gradient2 < |g0| →
              ∃ s0 j d, segs.get? 0 = some s0 ∧
                s0.indexRange.getLast? = some j ∧
                depths.get? j = some d ∧ st.LEP = some d))) := by
  obtain ⟨st2, hgb, hfin⟩ := segDetectCore_gateOpen hmax hgt hrun
  obtain ⟨seg', mi, trm, ep, lep0, lidx, hyp, uhy0, uidx, stL,
    h1, h2, h3, h4, h5, h6, h7, h8, h9, h10, h11⟩ := gateBranch_parts hgb
  have hLEP : st.LEP = stL.LEP := by
    rw [hfin, (finalizeDiag_fields _ _ _ _ _).2.1,
      (setUHYdepth_fields h11).2.1]
  constructor
  · intro h0
    rw [h0] at h6
    unfold computeLEPindex at h6
    rw [if_pos rfl] at h6
    injection h6 with h6
    rw [← h6, setLEPdepth_none] at h10
    injection h10 with h10
    rw [hLEP, ← h10]
    rfl
  · intro hne g1 hg1
    unfold computeLEPindex at h6
    rw [if_neg hne] at h6
    simp only [Option.bind_eq_bind, hg1, Option.some_bind] at h6
    constructor
    · intro hlt
      rw [if_pos hlt] at h6
      simp only [Option.bind_eq_bind, Option.bind_eq_some, Option.pure_def,
        Option.some.injEq] at h6
      obtain ⟨s1, hs1, j, hj, hlidx⟩ := h6
      rw [← hlidx] at h10
      obtain ⟨d, hd, hstL⟩ := setLEPdepth_some h10
      exact ⟨s1, j, d, hs1, by rw [← pyGet_neg_one]; exact hj, hd,
        by rw [hLEP, hstL]⟩
    · intro hnlt g0 hg0
      rw [if_neg hnlt] at h6
      simp only [Option.bind_eq_bind, hg0, Option.some_bind] at h6
      constructor
      · intro hbig
        rw [if_pos hbig] at h6
        simp only [Option.pure_def] at h6
        injection h6 with h6
        rw [← h6, setLEPdepth_none] at h10
        injection h10 with h10
        rw [hLEP, ← h10]
        rfl
      · intro hnbig
        rw [if_neg hnbig] at h6
        simp only [Option.pure_def] at h6
        injection h6 with h6
        rw [← h6] at h10
        obtain ⟨d, hd, hstL⟩ := setLEPdepth_some h10
        exact ⟨ep, lep0, d, h4, by rw [← pyGet_neg_one]; exact h5, hd,
          by rw [hLEP, hstL]⟩

/-- Witness for C4 on a concrete profile taking the default rule: the
max-gradient segment is segment 1, the gradient of segment 1 is not small,
segment 0 has no large gradient, so LEP is the depth at the last index of
segment 0. -/
theorem C4_LEP_witness :
    ∃ st s0 j d,
      segDetectCore ⟨1, 1, 1/2, 3/2, 2⟩ [0, 1, 2, 3]
        [⟨20, 20, [0]⟩, ⟨20, 10, [1, 2]⟩, ⟨10, 10, [3]⟩] initState =
          some st ∧
      ([⟨20, 20, [0]⟩, ⟨20, 10, [1, 2]⟩, ⟨10, 10, [3]⟩] :
        List Segment).get? 0 = some s0 ∧
      s0.indexRange.getLast? = some j ∧
      ([0, 1, 2, 3] : List ℚ).get? j = some d ∧ st.LEP = some d := by
  have hs : (segDetectCore ⟨1, 1, 1/2, 3/2, 2⟩ [0, 1, 2, 3]
      [⟨20, 20, [0]⟩, ⟨20, 10, [1, 2]⟩, ⟨10, 10, [3]⟩] initState).isSome :=
    by decide
  rw [Option.isSome_iff_exists] at hs
  obtain ⟨st, hst⟩ := hs
  have h := C4_LEP ⟨1, 1, 1/2, 3/2, 2⟩ [0, 1, 2, 3]
    [⟨20, 20, [0]⟩, ⟨20, 10, [1, 2]⟩, ⟨10, 10, [3]⟩] st 10
    (by decide) (by norm_num) hst
  have h2 := (h.2 (by decide) 10 (by decide)).2 (by norm_num) 0 (by decide)
  obtain ⟨s0, j, d, ha, hb, hc, hd⟩ := h2.2 (by norm_num)
  exact ⟨st, s0, j, d, hst, ha, hb, hc, hd⟩

/-- Claim C5 (confirmed, within the open TRM gate): when the
maximum-gradient segment is the last segment, UHY is None; otherwise UHY
follows the first matching rule: if the absolute gradient of the
second-to-last segment is below stable_gradient, UHY is the depth at the
first index of the second-to-last segment; else if the absolute gradient of
the last segment exceeds stable_gradient2, UHY is None; else UHY is the
depth at the first index of the last segment. -/
theorem C5_UHY (cfg : Config) (depths : List ℚ) (segs : List Segment)
    (st : SegState) (m : ℚ)
    (hmax : listMax (segs.map (getGradientFromSegment cfg)) = some m)
    (hgt : cfg.minTRM_gradient < m)
    (hrun : segDetectCore cfg depths segs initState = some st) :
    (npArgmax (segs.map (getGradientFromSegment cfg)) =
        (segs.map (getGradientFromSegment cfg)).length - 1 →
      st.UHY = none) ∧
    (npArgmax (segs.map (getGradientFromSegment cfg)) ≠
        (segs.map (getGradientFromSegment cfg)).length - 1 →
      ∀ gm2, pyGet (segs.map (getGradientFromSegment cfg)) (-2) = some gm2 →
        (|gm2| < cfg.stable_gradient →
          ∃ sm2 j d, pyGet segs (-2) = some sm2 ∧
            sm2.indexRange.get? 0 = some j ∧
            depths.get? j = some d ∧ st.UHY = some d) ∧
        (¬ |gm2| < cfg.stable_gradient →
          ∀ gm1, pyGet (segs.map (getGradientFromSegment cfg)) (-1) =
              some gm1 →
            (cfg.stable_gradient2 < |gm1| → st.UHY = none) ∧
            (¬ cfg.stable_gradient2 < |gm1| →
              ∃ slast j d, pyGet segs (-1) = some slast ∧
                slast.indexRange.get? 0 = some j ∧
                depths.get? j = some d ∧ st.UHY = some d))) := by
  obtain ⟨st2, hgb, hfin⟩ := segDetectCore_gateOpen hmax hgt hrun
  obtain ⟨seg', mi, trm, ep, lep0, lidx, hyp, uhy0, uidx, stL,
    h1, h2, h3, h4, h5, h6, h7, h8, h9, h10, h11⟩ := gateBranch_parts hgb
  have hUHY : st.UHY = st2.UHY := by
    rw [hfin, (finalizeDiag_fields _ _ _ _ _).2.2]
  have hstLU : stL.UHY = none := by
    rw [(setLEPdepth_fields h10).2.1]
    rfl
  constructor
  · intro h0
    rw [h0] at h9
    unfold computeUHYindex at h9
    rw [if_pos rfl] at h9
    injection h9 with h9
    rw [← h9, setUHYdepth_none] at h11
    injection h11 with h11
    rw [hUHY, ← h11, hstLU]
  · intro hne gm2 hgm2
    unfold computeUHYindex at h9
    rw [if_neg hne] at h9
    simp only [Option.bind_eq_bind, hgm2, Option.some_bind] at h9
    constructor
    · intro hlt
      rw [if_pos hlt] at h9
      simp only [Option.bind_eq_bind, Option.bind_eq_some, Option.pure_def,
        Option.some.injEq] at h9
      obtain ⟨sm2, hsm2, j, hj, huidx⟩ := h9
      rw [← huidx] at h11
      obtain ⟨d, hd, hst2⟩ := setUHYdepth_some h11
      exact ⟨sm2, j, d, hsm2, hj, hd, by rw [hUHY, hst2]⟩
    · intro hnlt gm1 hgm1
      rw [if_neg hnlt] at h9
      simp only [Option.bind_eq_bind, hgm1, Option.some_bind] at h9
      constructor
      · intro hbig
        rw [if_pos hbig] at h9
        simp only [Option.pure_def] at h9
        injection h9 with h9
        rw [← h9, setUHYdepth_none] at h11
        injection h11 with h11
        rw [hUHY, ← h11, hstLU]
      · intro hnbig
        rw [if_neg hnbig] at h9
        simp only [Option.pure_def] at h9
        injection h9 with h9
        rw [← h9] at h11
        obtain ⟨d, hd, hst2⟩ := setUHYdepth_some h11
        exact ⟨hyp, uhy0, d, h7, h8, hd, by rw [hUHY, hst2]⟩

/-- Witness for C5 on a concrete profile taking the default rule: the
max-gradient segment is not the last one, the second-to-last gradient is
not small, the last gradient is not large, so UHY is the depth at the
first index of the last segment. -/
theorem C5_UHY_witness :
    ∃ st slast j d,
      segDetectCore ⟨1, 1, 1/2, 3/2, 2⟩ [0, 1, 2, 3]
        [⟨20, 20, [0]⟩, ⟨20, 10, [1, 2]⟩, ⟨10, 10, [3]⟩] initState =
          some st ∧
      pyGet ([⟨20, 20, [0]⟩, ⟨20, 10, [1, 2]⟩, ⟨10, 10, [3]⟩] :
        List Segment) (-1) = some slast ∧
      slast.indexRange.get? 0 = some j ∧
      ([0, 1, 2, 3] : List ℚ).get? j = some d ∧ st.UHY = some d := by
  have hs : (segDetectCore ⟨1, 1, 1/2, 3/2, 2⟩ [0, 1, 2, 3]
      [⟨20, 20, [0]⟩, ⟨20, 10, [1, 2]⟩, ⟨10, 10, [3]⟩] initState).isSome :=
    by decide
  rw [Option.isSome_iff_exists] at hs
  obtain ⟨st, hst⟩ := hs
  have h := C5_UHY ⟨1, 1, 1/2, 3/2, 2⟩ [0, 1, 2, 3]
    [⟨20, 20, [0]⟩, ⟨20, 10, [1, 2]⟩, ⟨10, 10, [3]⟩] st 10
    (by decide) (by norm_num) hst
  have h2 := (h.2 (by decide) 10 (by decide)).2 (by norm_num) 0 (by decide)
  obtain ⟨slast, j, d, ha, hb, hc, hd⟩ := h2.2 (by norm_num)
  exact ⟨st, slast, j, d, hst, ha, hb, hc, hd⟩

/-- Counterexample to claim C6 as stated: the guard is not idempotent.  On
this three-segment list the first segment has the maximum gradient 3 and
spans 0 depth units, so the guard discards it; but on the reduced list the
new first segment again has the maximum gradient 2 and spans 0 depth units,
so a second application discards another segment instead of leaving the
reduced list unchanged. -/
theorem C6_counterexample :
    noiseGuard ⟨1, 1, 1/2, 3/2, 2⟩ [0, 1, 2, 3, 4]
      [⟨30, 27, [0]⟩, ⟨27, 25, [1]⟩, ⟨25, 25, [2, 3, 4]⟩] =
      some [⟨27, 25, [1]⟩, ⟨25, 25, [2, 3, 4]⟩] ∧
    noiseGuard ⟨1, 1, 1/2, 3/2, 2⟩ [0, 1, 2, 3, 4]
      [⟨27, 25, [1]⟩, ⟨25, 25, [2, 3, 4]⟩] =
      some [⟨25, 25, [2, 3, 4]⟩] ∧
    some ([⟨25, 25, [2, 3, 4]⟩] : List Segment) ≠
      some [⟨27, 25, [1]⟩, ⟨25, 25, [2, 3, 4]⟩] := by
  refine ⟨by decide, by decide, by decide⟩

/-- Claim C6 as amended: if the segment with the maximum gradient is the
first segment and its depth span is below 2 depth units, the guard discards
it and detection proceeds on the remaining segments, recomputing the
maximum there before TRM selection.  The guard is applied once per
detection and is not idempotent in general (see the counterexample); a
second application leaves the reduced list unchanged exactly when the
reduced list no longer satisfies the guard condition, the two
condition-failure cases being a first-segment span of at least 2 and a
maximum gradient away from the first segment. -/
theorem C6_noise_guard_amended :
    (∀ (cfg : Config) (depths : List ℚ) (s0 : Segment)
        (rest : List Segment) (d : ℚ) (st : SegState),
      npArgmax ((s0 :: rest).map (getGradientFromSegment cfg)) = 0 →
      segmentSpan depths s0 = some d → d < 2 →
      noiseGuard cfg depths (s0 :: rest) = some rest ∧
      thermocline_segmentation.detect cfg depths (s0 :: rest) st =
        segDetectCore cfg depths rest st) ∧
    (∀ (cfg : Config) (depths : List ℚ) (segs : List Segment)
        (s0 : Segment) (d : ℚ),
      segs.get? 0 = some s0 → segmentSpan depths s0 = some d → ¬ d < 2 →
      noiseGuard cfg depths segs = some segs) ∧
    (∀ (cfg : Config) (depths : List ℚ) (segs : List Segment),
      npArgmax (segs.map (getGradientFromSegment cfg)) ≠ 0 →
      noiseGuard cfg depths segs = some segs) := by
  refine ⟨?_, ?_, ?_⟩
  · intro cfg depths s0 rest d st h0 hspan hd
    have hg : noiseGuard cfg depths (s0 :: rest) = some rest := by
      unfold noiseGuard
      rw [if_pos h0]
      simp only [Option.bind_eq_bind, List.get?_cons_zero, Option.some_bind,
        hspan, if_pos hd]
      rfl
    refine ⟨hg, ?_⟩
    simp only [thermocline_segmentation.detect, Option.bind_eq_bind, hg,
      Option.some_bind]
  · intro cfg depths segs s0 d hget hspan hd
    unfold noiseGuard
    by_cases hc : npArgmax (segs.map (getGradientFromSegment cfg)) = 0
    · rw [if_pos hc]
      simp only [Option.bind_eq_bind, hget, Option.some_bind, hspan,
        if_neg hd]
      rfl
    · rw [if_neg hc]
      rfl
  · intro cfg depths segs hne
    unfold noiseGuard
    rw [if_neg hne]
    rfl

/-- Witness for the amended C6, applying each conjunct at a concrete
input: a short leading max-gradient segment is discarded and detection
continues on the rest; a wide first segment and a non-leading maximum
both leave the list unchanged. -/
theorem C6_noise_guard_amended_witness :
    (noiseGuard ⟨1, 1, 1/2, 3/2, 2⟩ [0, 1, 2, 3, 4]
        [⟨30, 27, [0]⟩, ⟨25, 25, [1, 2, 3, 4]⟩] =
        some [⟨25, 25, [1, 2, 3, 4]⟩] ∧
      thermocline_segmentation.detect ⟨1, 1, 1/2, 3/2, 2⟩ [0, 1, 2, 3, 4]
          [⟨30, 27, [0]⟩, ⟨25, 25, [1, 2, 3, 4]⟩] initState =
        segDetectCore ⟨1, 1, 1/2, 3/2, 2⟩ [0, 1, 2, 3, 4]
          [⟨25, 25, [1, 2, 3, 4]⟩] initState) ∧
    noiseGuard ⟨1, 1, 1/2, 3/2, 2⟩ [0, 1, 2]
      [⟨20, 10, [0, 1, 2]⟩] = some [⟨20, 10, [0, 1, 2]⟩] ∧
    noiseGuard ⟨1, 1, 1/2, 3/2, 2⟩ [0, 1, 2, 3]
      [⟨20, 20, [0]⟩, ⟨20, 10, [1, 2]⟩, ⟨10, 10, [3]⟩] =
      some [⟨20, 20, [0]⟩, ⟨20, 10, [1, 2]⟩, ⟨10, 10, [3]⟩] :=
  ⟨C6_noise_guard_amended.1 ⟨1, 1, 1/2, 3/2, 2⟩ [0, 1, 2, 3, 4]
      ⟨30, 27, [0]⟩ [⟨25, 25, [1, 2, 3, 4]⟩] 0 initState (by decide)
      (by decide) (by norm_num),
    C6_noise_guard_amended.2.1 ⟨1, 1, 1/2, 3/2, 2⟩ [0, 1, 2]
      [⟨20, 10, [0, 1, 2]⟩] ⟨20, 10, [0, 1, 2]⟩ 2 (by decide) (by decide)
      (by norm_num),
    C6_noise_guard_amended.2.2 ⟨1, 1, 1/2, 3/2, 2⟩ [0, 1, 2, 3]
      [⟨20, 20, [0]⟩, ⟨20, 10, [1, 2]⟩, ⟨10, 10, [3]⟩] (by decide)⟩

theorem segDetectCore_parts {cfg : Config} {depths : List ℚ}
    {segs : List Segment} {st0 st : SegState}
    (hrun : segDetectCore cfg depths segs st0 = some st) :
    ∃ st2 tg, listMax (segs.map (getGradientFromSegment cfg)) = some tg ∧
      st2.doubleTRM = st0.doubleTRM ∧ st2.positiveSeg = st0.positiveSeg ∧
      st = finalizeDiag cfg segs
        (npArgmax (segs.map (getGradientFromSegment cfg))) tg st2 := by
  simp only [segDetectCore, Option.bind_eq_bind, Option.bind_eq_some,
    Option.pure_def, Option.some.injEq] at hrun
  obtain ⟨gmax, hgmax, hrest⟩ := hrun
  by_cases hc : cfg.minTRM_gradient < gmax
  · rw [if_pos hc] at hrest
    simp only [Option.bind_eq_some, Option.some.injEq] at hrest
    obtain ⟨st2, hif, tg, htg, hfin⟩ := hrest
    obtain ⟨seg, mi, trm, ep, lep0, lidx, hyp, uhy0, uidx, stL,
      -, -, -, -, -, -, -, -, -, h10, h11⟩ := gateBranch_parts hif
    have hL := setLEPdepth_fields h10
    have hU := setUHYdepth_fields h11
    refine ⟨st2, tg, htg, ?_, ?_, hfin.symm⟩
    · rw [hU.2.2.1, hL.2.2.1]
    · rw [hU.2.2.2.1, hL.2.2.2.1]
  · rw [if_neg hc] at hrest
    simp only [Option.some_bind, Option.bind_eq_some,
      Option.some.injEq] at hrest
    obtain ⟨tg, htg, hfin⟩ := hrest
    exact ⟨{ st0 with gradient := segs.map (getGradientFromSegment cfg) },
      tg, htg, rfl, rfl, hfin.symm⟩

theorem doubleTRMflags_eq_filter (cfg : Config) (segs : List Segment) :
    doubleTRMflags cfg segs = (List.range segs.length).filter fun i =>
      decide (1 ≤ i ∧ i ≤ segs.length - 2 ∧
        |gradAt cfg segs i| < cfg.stable_gradient ∧
        cfg.minTRM_gradient < gradAt cfg segs (i - 1) ∧
        cfg.stable_gradient < gradAt cfg segs (i + 1)) := by
  unfold doubleTRMflags
  refine List.filter_congr ?_
  intro i hi
  simp only [List.mem_range] at hi
  simp only [← Bool.decide_and]
  rw [decide_eq_decide]
  constructor
  · rintro ⟨⟨⟨⟨h1, h2⟩, h3⟩, h4⟩, h5⟩
    exact ⟨h1, by omega, h3, h4, h5⟩
  · rintro ⟨h1, h2, h3, h4, h5⟩
    exact ⟨⟨⟨⟨h1, by omega⟩, h3⟩, h4⟩, h5⟩

theorem positiveSegFlags_eq_filter (cfg : Config) (segs : List Segment) :
    positiveSegFlags cfg segs = (List.range segs.length).filter fun i =>
      decide (gradAt cfg segs i < -cfg.stable_gradient) := by
  unfold positiveSegFlags
  refine List.filter_congr ?_
  intro i hi
  rw [decide_eq_decide, neg_one_mul]

/-- Claim C7 (confirmed): after any successful core detection from a fresh
detector, the double-TRM count equals exactly the number of interior
indices i with 1 ≤ i ≤ len − 2, small absolute gradient at i, gradient
above minTRM_gradient at i − 1 and above stable_gradient at i + 1; the
positive-gradient count equals exactly the number of segments with
gradient below −stable_gradient; and both flagged index lists are in
strictly increasing order. -/
theorem C7_anomaly_counts (cfg : Config) (depths : List ℚ)
    (segs : List Segment) (st : SegState)
    (hrun : segDetectCore cfg depths segs initState = some st) :
    st.doubleTRM.length = ((List.range segs.length).filter fun i =>
      decide (1 ≤ i ∧ i ≤ segs.length - 2 ∧
        |gradAt cfg segs i| < cfg.stable_gradient ∧
        cfg.minTRM_gradient < gradAt cfg segs (i - 1) ∧
        cfg.stable_gradient < gradAt cfg segs (i + 1))).length ∧
    st.positiveSeg.length = ((List.range segs.length).filter fun i =>
      decide (gradAt cfg segs i < -cfg.stable_gradient)).length ∧
    List.Pairwise (fun a b => a < b) st.doubleTRM ∧
    List.Pairwise (fun a b => a < b) st.positiveSeg := by
  obtain ⟨st2, tg, htg, hd, hp, hfin⟩ := segDetectCore_parts hrun
  have hD : st.doubleTRM = doubleTRMflags cfg segs := by
    rw [hfin]
    show detectDoubleTRM cfg segs st2.doubleTRM = _
    rw [detectDoubleTRM, hd]
    rfl
  have hP : st.positiveSeg = positiveSegFlags cfg segs := by
    rw [hfin]
    rfl
  refine ⟨?_, ?_, ?_, ?_⟩
  · rw [hD, doubleTRMflags_eq_filter]
  · rw [hP, positiveSegFlags_eq_filter]
  · rw [hD]
    unfold doubleTRMflags
    exact List.Pairwise.filter _ (List.pairwise_lt_range _)
  · rw [hP]
    unfold positiveSegFlags
    exact List.Pairwise.filter _ (List.pairwise_lt_range _)

/-- Witness for C7 on a concrete three-segment profile whose middle
segment is a double-TRM marker. -/
theorem C7_anomaly_counts_witness :
    ∃ st, segDetectCore ⟨1, 1, 1/2, 3/2, 2⟩ [0, 1, 2]
        [⟨23, 20, [0]⟩, ⟨20, 99/5, [1]⟩, ⟨99/5, 94/5, [2]⟩] initState =
        some st ∧
      st.doubleTRM.length = ((List.range 3).filter fun i =>
        decide (1 ≤ i ∧ i ≤ 3 - 2 ∧
          |gradAt ⟨1, 1, 1/2, 3/2, 2⟩
            [⟨23, 20, [0]⟩, ⟨20, 99/5, [1]⟩, ⟨99/5, 94/5, [2]⟩] i| < 1/2 ∧
          2 < gradAt ⟨1, 1, 1/2, 3/2, 2⟩
            [⟨23, 20, [0]⟩, ⟨20, 99/5, [1]⟩, ⟨99/5, 94/5, [2]⟩] (i - 1) ∧
          1/2 < gradAt ⟨1, 1, 1/2, 3/2, 2⟩
            [⟨23, 20, [0]⟩, ⟨20, 99/5, [1]⟩, ⟨99/5, 94/5, [2]⟩]
            (i + 1))).length ∧
      List.Pairwise (fun a b => a < b) st.doubleTRM ∧
      List.Pairwise (fun a b => a < b) st.positiveSeg := by
  have hs : (segDetectCore ⟨1, 1, 1/2, 3/2, 2⟩ [0, 1, 2]
      [⟨23, 20, [0]⟩, ⟨20, 99/5, [1]⟩, ⟨99/5, 94/5, [2]⟩]
      initState).isSome := by decide
  rw [Option.isSome_iff_exists] at hs
  obtain ⟨st, hst⟩ := hs
  have h := C7_anomaly_counts ⟨1, 1, 1/2, 3/2, 2⟩ [0, 1, 2]
    [⟨23, 20, [0]⟩, ⟨20, 99/5, [1]⟩, ⟨99/5, 94/5, [2]⟩] st hst
  exact ⟨st, hst, h.1, h.2.2.1, h.2.2.2⟩

theorem lookup_setKey_self : ∀ (f : Feat) (k : String) (v : Option ℚ),
    List.lookup k (setKey f k v) = some v := by
  intro f k v
  induction f with
  | nil => simp [setKey]
  | cons kv rest ih =>
    obtain ⟨k0, v0⟩ := kv
    by_cases h : k0 = k
    · subst h
      simp [setKey]
    · rw [setKey, if_neg h, List.lookup]
      rw [show (k == k0) = false from beq_eq_false_iff_ne.mpr (Ne.symm h)]
      exact ih

theorem lookup_setKey_ne {k k' : String} (h : k' ≠ k) :
    ∀ (f : Feat) (v : Option ℚ),
    List.lookup k' (setKey f k v) = List.lookup k' f := by
  intro f v
  induction f with
  | nil =>
    simp [setKey, List.lookup,
      show (k' == k) = false from beq_eq_false_iff_ne.mpr h]
  | cons kv rest ih =>
    obtain ⟨k0, v0⟩ := kv
    by_cases h0 : k0 = k
    · subst h0
      rw [setKey, if_pos rfl, List.lookup, List.lookup,
        show (k' == k0) = false from beq_eq_false_iff_ne.mpr h]
    · rw [setKey, if_neg h0, List.lookup, List.lookup]
      by_cases h1 : k' = k0
      · rw [show (k' == k0) = true from beq_iff_eq.mpr h1]
      · rw [show (k' == k0) = false from beq_eq_false_iff_ne.mpr h1]
        exact ih

/-- Claim C10 (confirmed): detectPositiveGradient clears its accumulator
before scanning, so its result never depends on the prior state; but
detectDoubleTRM appends to the incoming doubleTRM without clearing it, so
running it twice from a fresh state lists every flagged interior index
twice, and its result equals the flagged set alone only when the incoming
accumulator is the fresh empty one. -/
theorem C10_accumulator_state (cfg : Config) (segs : List Segment)
    (acc : List ℕ) :
    detectPositiveGradient cfg segs acc =
      detectPositiveGradient cfg segs [] ∧
    detectDoubleTRM cfg segs (detectDoubleTRM cfg segs []) =
      doubleTRMflags cfg segs ++ doubleTRMflags cfg segs ∧
    (∀ i, i ∈ doubleTRMflags cfg segs →
      (detectDoubleTRM cfg segs
        (detectDoubleTRM cfg segs [])).count i = 2) ∧
    detectDoubleTRM cfg segs acc = acc ++ doubleTRMflags cfg segs := by
  have hnodup : (doubleTRMflags cfg segs).Nodup := by
    unfold doubleTRMflags
    exact ((List.pairwise_lt_range _).filter _).imp Nat.ne_of_lt
  refine ⟨rfl, by simp [detectDoubleTRM], ?_, rfl⟩
  intro i hi
  have h1 : (doubleTRMflags cfg segs).count i = 1 :=
    List.count_eq_one_of_mem hnodup hi
  simp [detectDoubleTRM, List.count_append, h1]

/-- Witness for C10 on a concrete three-segment list whose middle segment
is flagged: index 1 appears twice after two calls. -/
theorem C10_accumulator_state_witness :
    detectPositiveGradient ⟨1, 1, 1/2, 3/2, 2⟩
      [⟨23, 20, [0]⟩, ⟨20, 99/5, [1]⟩, ⟨99/5, 94/5, [2]⟩] [7] =
      detectPositiveGradient ⟨1, 1, 1/2, 3/2, 2⟩
      [⟨23, 20, [0]⟩, ⟨20, 99/5, [1]⟩, ⟨99/5, 94/5, [2]⟩] [] ∧
    (detectDoubleTRM ⟨1, 1, 1/2, 3/2, 2⟩
      [⟨23, 20, [0]⟩, ⟨20, 99/5, [1]⟩, ⟨99/5, 94/5, [2]⟩]
      (detectDoubleTRM ⟨1, 1, 1/2, 3/2, 2⟩
        [⟨23, 20, [0]⟩, ⟨20, 99/5, [1]⟩, ⟨99/5, 94/5, [2]⟩] [])).count 1 =
      2 := by
  have h := C10_accumulator_state ⟨1, 1, 1/2, 3/2, 2⟩
    [⟨23, 20, [0]⟩, ⟨20, 99/5, [1]⟩, ⟨99/5, 94/5, [2]⟩] [7]
  exact ⟨h.1, h.2.2.1 1 (by decide)⟩

theorem segDetectCore_gradient {cfg : Config} {depths : List ℚ}
    {segs : List Segment} {st0 st : SegState}
    (hrun : segDetectCore cfg depths segs st0 = some st) :
    st.gradient = segs.map (getGradientFromSegment cfg) := by
  simp only [segDetectCore, Option.bind_eq_bind, Option.bind_eq_some,
    Option.pure_def, Option.some.injEq] at hrun
  obtain ⟨gmax, hgmax, hrest⟩ := hrun
  by_cases hc : cfg.minTRM_gradient < gmax
  · rw [if_pos hc] at hrest
    simp only [Option.bind_eq_some, Option.some.injEq] at hrest
    obtain ⟨st2, hif, tg, htg, hfin⟩ := hrest
    obtain ⟨seg, mi, trm, ep, lep0, lidx, hyp, uhy0, uidx, stL,
      -, -, -, -, -, -, -, -, -, h10, h11⟩ := gateBranch_parts hif
    rw [← hfin]
    show st2.gradient = _
    rw [(setUHYdepth_fields h11).2.2.2.2, (setLEPdepth_fields h10).2.2.2.2]
  · rw [if_neg hc] at hrest
    simp only [Option.some_bind, Option.bind_eq_some,
      Option.some.injEq] at hrest
    obtain ⟨tg, htg, hfin⟩ := hrest
    rw [← hfin]
    rfl

/-- Claim C9 (confirmed): when the fit yields a single segment and the
segmentation detector itself succeeds, the gradient list has length one,
so reading gradient[-2] for the lastButTwoSegmentGradient diagnostic is an
IndexError inside the ensemble's segmentation block: the block is flagged
as failed and the lastButTwoSegmentGradient key is never assigned; there
is no retry. -/
theorem C9_single_segment (cfg : Config) (depths : List ℚ) (s : Segment)
    (st : SegState) (f : Feat)
    (hdet : thermocline_segmentation.detect cfg depths [s] initState =
      some st) :
    st.gradient.length = 1 ∧
    pyGet st.gradient (-2) = none ∧
    (thermocline.segBlock cfg depths [s] f).2 = false ∧
    List.lookup "lastButTwoSegmentGradient"
      (thermocline.segBlock cfg depths [s] f).1 =
      List.lookup "lastButTwoSegmentGradient" f := by
  have hrun := hdet
  simp only [thermocline_segmentation.detect, Option.bind_eq_bind,
    Option.bind_eq_some] at hrun
  obtain ⟨segs2, hguard, hcore⟩ := hrun
  have hsegs2 : segs2 = [s] := by
    unfold noiseGuard at hguard
    by_cases hc : npArgmax ([s].map (getGradientFromSegment cfg)) = 0
    · rw [if_pos hc] at hguard
      simp only [Option.bind_eq_bind, List.get?_cons_zero, Option.some_bind,
        Option.bind_eq_some] at hguard
      obtain ⟨d, hd, hguard⟩ := hguard
      by_cases h2 : d < 2
      · rw [if_pos h2] at hguard
        simp only [Option.pure_def, Option.some.injEq] at hguard
        exfalso
        rw [← hguard] at hcore
        simp [segDetectCore, listMax, npArgmax] at hcore
      · rw [if_neg h2] at hguard
        simp only [Option.pure_def, Option.some.injEq] at hguard
        exact hguard.symm
    · rw [if_neg hc] at hguard
      simp only [Option.pure_def, Option.some.injEq] at hguard
      exact hguard.symm
  subst hsegs2
  have hgrad : st.gradient = [getGradientFromSegment cfg s] :=
    segDetectCore_gradient hcore
  have hlen : st.gradient.length = 1 := by rw [hgrad]; rfl
  have hm2 : pyGet st.gradient (-2) = none :=
    pyGet_neg_two_of_length_one hlen
  have hp0 : pyGet st.gradient 0 = some (getGradientFromSegment cfg s) := by
    rw [hgrad, pyGet_zero]
    rfl
  have hp1 : pyGet st.gradient (-1) =
      some (getGradientFromSegment cfg s) := by
    rw [hgrad, pyGet_neg_one]
    rfl
  refine ⟨hlen, hm2, ?_, ?_⟩
  · unfold thermocline.segBlock
    rw [hdet]
    simp only [hp0, hp1, hm2]
  · unfold thermocline.segBlock
    rw [hdet]
    simp only [hp0, hp1, hm2]
    rw [lookup_setKey_ne (by decide), lookup_setKey_ne (by decide),
      lookup_setKey_ne (by decide), lookup_setKey_ne (by decide),
      lookup_setKey_ne (by decide), lookup_setKey_ne (by decide),
      lookup_setKey_ne (by decide), lookup_setKey_ne (by decide),
      lookup_setKey_ne (by decide), lookup_setKey_ne (by decide)]

/-- Witness for C9: a concrete single-segment fit on which the
segmentation detector succeeds but the ensemble block fails at the
second-to-last-gradient diagnostic. -/
theorem C9_single_segment_witness :
    ∃ st, thermocline_segmentation.detect ⟨1, 1, 1/2, 3/2, 2⟩ [0, 1, 2]
        [⟨20, 10, [0, 1, 2]⟩] initState = some st ∧
      st.gradient.length = 1 ∧
      pyGet st.gradient (-2) = none ∧
      (thermocline.segBlock ⟨1, 1, 1/2, 3/2, 2⟩ [0, 1, 2]
        [⟨20, 10, [0, 1, 2]⟩] initFeatures).2 = false ∧
      List.lookup "lastButTwoSegmentGradient"
        (thermocline.segBlock ⟨1, 1, 1/2, 3/2, 2⟩ [0, 1, 2]
          [⟨20, 10, [0, 1, 2]⟩] initFeatures).1 =
        List.lookup "lastButTwoSegmentGradient" initFeatures := by
  have hs : (thermocline_segmentation.detect ⟨1, 1, 1/2, 3/2, 2⟩ [0, 1, 2]
      [⟨20, 10, [0, 1, 2]⟩] initState).isSome := by decide
  rw [Option.isSome_iff_exists] at hs
  obtain ⟨st, hst⟩ := hs
  have h := C9_single_segment ⟨1, 1, 1/2, 3/2, 2⟩ [0, 1, 2]
    ⟨20, 10, [0, 1, 2]⟩ st initFeatures hst
  exact ⟨st, hst, h.1, h.2.1, h.2.2.1, h.2.2.2⟩

theorem segBlock_fail {cfg : Config} {depths : List ℚ}
    {segs : List Segment} (f : Feat)
    (h : thermocline_segmentation.detect cfg depths segs initState =
      none) :
    thermocline.segBlock cfg depths segs f = (f, false) := by
  unfold thermocline.segBlock
  rw [h]

theorem hmmBlock_none (f : Feat) :
    thermocline.hmmBlock none f = (f, false) := rfl

theorem thrBlock_none (f : Feat) :
    thermocline.thrBlock none f = (f, false) := rfl

theorem hmmBlock_lookup_of_ne {k : String} (h1 : k ≠ "TRM_HMM")
    (h2 : k ≠ "LEP_HMM") (h3 : k ≠ "UHY_HMM")
    (out : Option (ℚ × ℚ × ℚ)) (f : Feat) :
    List.lookup k (thermocline.hmmBlock out f).1 = List.lookup k f := by
  cases out with
  | none => rfl
  | some x =>
    obtain ⟨t, l, u⟩ := x
    simp only [thermocline.hmmBlock]
    rw [lookup_setKey_ne h3, lookup_setKey_ne h2, lookup_setKey_ne h1]

theorem thrBlock_lookup_of_ne {k : String} (h1 : k ≠ "TRM_threshold")
    (h2 : k ≠ "LEP_threshold") (h3 : k ≠ "UHY_threshold")
    (out : Option (ℚ × ℚ × ℚ)) (f : Feat) :
    List.lookup k (thermocline.thrBlock out f).1 = List.lookup k f := by
  cases out with
  | none => rfl
  | some x =>
    obtain ⟨t, l, u⟩ := x
    simp only [thermocline.thrBlock]
    rw [lookup_setKey_ne h3, lookup_setKey_ne h2, lookup_setKey_ne h1]

theorem segBlock_lookup_of_ne {k : String}
    (h1 : k ≠ "TRM_gradient_segment") (h2 : k ≠ "TRM_segment")
    (h3 : k ≠ "LEP_segment") (h4 : k ≠ "UHY_segment")
    (h5 : k ≠ "TRM_num_segment") (h6 : k ≠ "TRM_idx")
    (h7 : k ≠ "doubleTRM") (h8 : k ≠ "positiveGradient")
    (h9 : k ≠ "firstSegmentGradient") (h10 : k ≠ "lastSegmentGradient")
    (h11 : k ≠ "lastButTwoSegmentGradient")
    (cfg : Config) (depths : List ℚ) (segs : List Segment) (f : Feat) :
    List.lookup k (thermocline.segBlock cfg depths segs f).1 =
      List.lookup k f := by
  unfold thermocline.segBlock
  cases thermocline_segmentation.detect cfg depths segs initState with
  | none => rfl
  | some st =>
    (repeat' split) <;>
      simp only [lookup_setKey_ne h1, lookup_setKey_ne h2,
        lookup_setKey_ne h3, lookup_setKey_ne h4, lookup_setKey_ne h5,
        lookup_setKey_ne h6, lookup_setKey_ne h7, lookup_setKey_ne h8,
        lookup_setKey_ne h9, lookup_setKey_ne h10, lookup_setKey_ne h11]

theorem ensemble_all (cfg : Config) (depths : List ℚ)
    (segs : List Segment) (h t : Option (ℚ × ℚ × ℚ)) :
    thermocline.detect cfg depths segs h t
      ["segmentation", "HMM", "threshold"] =
    ⟨(thermocline.thrBlock t (thermocline.hmmBlock h
        (thermocline.segBlock cfg depths segs initFeatures).1).1).1,
      (thermocline.segBlock cfg depths segs initFeatures).2,
      (thermocline.hmmBlock h
        (thermocline.segBlock cfg depths segs initFeatures).1).2,
      (thermocline.thrBlock t (thermocline.hmmBlock h
        (thermocline.segBlock cfg depths segs initFeatures).1).1).2⟩ := by
  rfl


theorem ensemble_no_seg (cfg : Config) (depths : List ℚ)
    (segs : List Segment) (h t : Option (ℚ × ℚ × ℚ)) :
    thermocline.detect cfg depths segs h t ["HMM", "threshold"] =
    ⟨(thermocline.thrBlock t
        (thermocline.hmmBlock h initFeatures).1).1,
      true,
      (thermocline.hmmBlock h initFeatures).2,
      (thermocline.thrBlock t
        (thermocline.hmmBlock h initFeatures).1).2⟩ := by
  rfl


theorem ensemble_no_hmm (cfg : Config) (depths : List ℚ)
    (segs : List Segment) (h t : Option (ℚ × ℚ × ℚ)) :
    thermocline.detect cfg depths segs h t
      ["segmentation", "threshold"] =
    ⟨(thermocline.thrBlock t
        (thermocline.segBlock cfg depths segs initFeatures).1).1,
      (thermocline.segBlock cfg depths segs initFeatures).2,
      true,
      (thermocline.thrBlock t
        (thermocline.segBlock cfg depths segs initFeatures).1).2⟩ := by
  rfl


theorem ensemble_no_thr (cfg : Config) (depths : List ℚ)
    (segs : List Segment) (h t : Option (ℚ × ℚ × ℚ)) :
    thermocline.detect cfg depths segs h t ["segmentation", "HMM"] =
    ⟨(thermocline.hmmBlock h
        (thermocline.segBlock cfg depths segs initFeatures).1).1,
      (thermocline.segBlock cfg depths segs initFeatures).2,
      (thermocline.hmmBlock h
        (thermocline.segBlock cfg depths segs initFeatures).1).2,
      true⟩ := by
  rfl


/-- Counterexample to claim C8 as stated: on a single-segment profile the
segmentation strategy raises an exception (IndexError at gradient[-2],
after model.detect succeeded), yet its keys do not all remain at the
default None: TRM_num_segment has already been set to 1 when the
exception interrupts the copy. -/
theorem C8_counterexample :
    (thermocline.detect ⟨1, 1, 1/2, 3/2, 2⟩ [0, 1, 2]
      [⟨20, 10, [0, 1, 2]⟩] (some (1, 0, 2)) (some (1, 0, 2))
      ["segmentation", "HMM", "threshold"]).segOk = false ∧
    List.lookup "TRM_num_segment"
      (thermocline.detect ⟨1, 1, 1/2, 3/2, 2⟩ [0, 1, 2]
        [⟨20, 10, [0, 1, 2]⟩] (some (1, 0, 2)) (some (1, 0, 2))
        ["segmentation", "HMM", "threshold"]).features = some (some 1) ∧
    some (some (1 : ℚ)) ≠ (some none : Option (Option ℚ)) :=
  ⟨by decide, by decide, by decide⟩

/-- Claim C8 as amended: a strategy failure never propagates — the
ensemble always returns the merged record; when a strategy's detect call
itself raises (before any key is copied), all of that strategy's keys
remain at the default None and the merged record equals the one from a
run without that strategy; but when the segmentation block fails midway
through copying its diagnostics, the keys copied before the exception
keep their values (see the counterexample).  The other strategies' keys
are populated exactly as if the failed strategy had never run. -/
theorem C8_isolation_amended :
    (∀ (cfg : Config) (depths : List ℚ) (segs : List Segment)
        (h t : Option (ℚ × ℚ × ℚ)),
      thermocline_segmentation.detect cfg depths segs initState = none →
      (thermocline.detect cfg depths segs h t
        ["segmentation", "HMM", "threshold"]).segOk = false ∧
      (thermocline.detect cfg depths segs h t
        ["segmentation", "HMM", "threshold"]).features =
        (thermocline.detect cfg depths segs h t
          ["HMM", "threshold"]).features ∧
      (∀ k, k ∈ ["TRM_segment", "LEP_segment", "UHY_segment",
          "TRM_gradient_segment", "TRM_num_segment"] →
        List.lookup k (thermocline.detect cfg depths segs h t
          ["segmentation", "HMM", "threshold"]).features = some none)) ∧
    (∀ (cfg : Config) (depths : List ℚ) (segs : List Segment)
        (t : Option (ℚ × ℚ × ℚ)),
      (thermocline.detect cfg depths segs none t
        ["segmentation", "HMM", "threshold"]).hmmOk = false ∧
      (thermocline.detect cfg depths segs none t
        ["segmentation", "HMM", "threshold"]).features =
        (thermocline.detect cfg depths segs none t
          ["segmentation", "threshold"]).features ∧
      (∀ k, k ∈ ["TRM_HMM", "LEP_HMM", "UHY_HMM"] →
        List.lookup k (thermocline.detect cfg depths segs none t
          ["segmentation", "HMM", "threshold"]).features = some none)) ∧
    (∀ (cfg : Config) (depths : List ℚ) (segs : List Segment)
        (h : Option (ℚ × ℚ × ℚ)),
      (thermocline.detect cfg depths segs h none
        ["segmentation", "HMM", "threshold"]).thrOk = false ∧
      (thermocline.detect cfg depths segs h none
        ["segmentation", "HMM", "threshold"]).features =
        (thermocline.detect cfg depths segs h none
          ["segmentation", "HMM"]).features ∧
      (∀ k, k ∈ ["TRM_threshold", "LEP_threshold", "UHY_threshold"] →
        List.lookup k (thermocline.detect cfg depths segs h none
          ["segmentation", "HMM", "threshold"]).features = some none)) := by
  refine ⟨?_, ?_, ?_⟩
  · intro cfg depths segs h t hfail
    rw [ensemble_all, ensemble_no_seg, segBlock_fail _ hfail]
    refine ⟨rfl, rfl, ?_⟩
    intro k hk
    fin_cases hk <;>
      · rw [thrBlock_lookup_of_ne (by decide) (by decide) (by decide),
          hmmBlock_lookup_of_ne (by decide) (by decide) (by decide)]
        decide
  · intro cfg depths segs t
    rw [ensemble_all, ensemble_no_hmm, hmmBlock_none]
    refine ⟨rfl, rfl, ?_⟩
    intro k hk
    fin_cases hk <;>
      · rw [thrBlock_lookup_of_ne (by decide) (by decide) (by decide),
          segBlock_lookup_of_ne (by decide) (by decide) (by decide)
            (by decide) (by decide) (by decide) (by decide) (by decide)
            (by decide) (by decide) (by decide)]
        decide
  · intro cfg depths segs h
    rw [ensemble_all, ensemble_no_thr, thrBlock_none]
    refine ⟨rfl, rfl, ?_⟩
    intro k hk
    fin_cases hk <;>
      · rw [hmmBlock_lookup_of_ne (by decide) (by decide) (by decide),
          segBlock_lookup_of_ne (by decide) (by decide) (by decide)
            (by decide) (by decide) (by decide) (by decide) (by decide)
            (by decide) (by decide) (by decide)]
        decide

/-- Witness for the amended C8, applying each conjunct at a concrete
input: an empty fit makes the segmentation detect call raise, and the HMM
and threshold outcomes are made to fail in turn. -/
theorem C8_isolation_amended_witness :
    ((thermocline.detect ⟨1, 1, 1/2, 3/2, 2⟩ [0, 1] [] (some (1, 0, 2))
        (some (1, 0, 2)) ["segmentation", "HMM", "threshold"]).segOk =
        false ∧
      (thermocline.detect ⟨1, 1, 1/2, 3/2, 2⟩ [0, 1] [] (some (1, 0, 2))
        (some (1, 0, 2)) ["segmentation", "HMM", "threshold"]).features =
        (thermocline.detect ⟨1, 1, 1/2, 3/2, 2⟩ [0, 1] [] (some (1, 0, 2))
          (some (1, 0, 2)) ["HMM", "threshold"]).features ∧
      List.lookup "TRM_segment"
        (thermocline.detect ⟨1, 1, 1/2, 3/2, 2⟩ [0, 1] [] (some (1, 0, 2))
          (some (1, 0, 2))
          ["segmentation", "HMM", "threshold"]).features = some none) ∧
    ((thermocline.detect ⟨1, 1, 1/2, 3/2, 2⟩ [0, 1, 2]
        [⟨20, 10, [0, 1, 2]⟩] none (some (1, 0, 2))
        ["segmentation", "HMM", "threshold"]).hmmOk = false ∧
      List.lookup "TRM_HMM"
        (thermocline.detect ⟨1, 1, 1/2, 3/2, 2⟩ [0, 1, 2]
          [⟨20, 10, [0, 1, 2]⟩] none (some (1, 0, 2))
          ["segmentation", "HMM", "threshold"]).features = some none) ∧
    (thermocline.detect ⟨1, 1, 1/2, 3/2, 2⟩ [0, 1, 2]
      [⟨20, 10, [0, 1, 2]⟩] (some (1, 0, 2)) none
      ["segmentation", "HMM", "threshold"]).thrOk = false := by
  have h1 := C8_isolation_amended.1 ⟨1, 1, 1/2, 3/2, 2⟩ [0, 1] []
    (some (1, 0, 2)) (some (1, 0, 2)) rfl
  have h2 := C8_isolation_amended.2.1 ⟨1, 1, 1/2, 3/2, 2⟩ [0, 1, 2]
    [⟨20, 10, [0, 1, 2]⟩] (some (1, 0, 2))
  have h3 := C8_isolation_amended.2.2 ⟨1, 1, 1/2, 3/2, 2⟩ [0, 1, 2]
    [⟨20, 10, [0, 1, 2]⟩] (some (1, 0, 2))
  exact ⟨⟨h1.1, h1.2.1, h1.2.2 "TRM_segment" (by decide)⟩,
    ⟨h2.1, h2.2.2 "TRM_HMM" (by decide)⟩, h3.1⟩

end Seabird
